import Mathlib

/-!
Verification of the hard-sample-mining training loop of `lss_train.py` and of
the `Patient` class of `lic_patient.py` (repository STAP-liver).

Embedding conventions:
* feature rows are `List ℚ`, class labels are `ℕ` (the source stores them as
  floats but only ever compares them for equality and uses the two classes
  0 and 1);
* the scikit-learn primitives (PCA, GridSearchCV/SVC) are opaque values of
  type parameters `P` (fitted projection) and `C` (fitted classifier),
  orchestrated through the function fields of `TrainParams`, exactly as the
  spec treats them (fit/predict/transform contract, internals out of scope);
* `random.sample(pool, k)` is modelled by `randomSample`, parameterised by an
  oracle choosing the position of each draw; drawing without replacement is
  erasing the drawn position from the pool; a `none` result is the
  `ValueError` the Python function raises when `k` exceeds the pool size
  (or is negative, handled in `pySample`);
* Python `int()` applied to a nonnegative float of the form
  `learning_rate * len(...)` truncates toward zero: `intTrunc`;
* one iteration of the `while` loop at lines 153-210 of `lss_train.py` is
  `epochStep`; the loop itself is `runLoop`; the code after the loop
  (final report and `joblib.dump`) is `fullRun`, whose `Except.ok` result
  is the model artifact written to disk;
* the module-level state before the loop (line 127 `X_test, y_test = X, y`,
  line 133 initial train set, line 143 PCA fit) is `initState`;
* Python dictionaries are heap objects: `DictHeap` is the store of all
  dictionaries, a `Patient` holds addresses (`volumesRef`, `labelmapsRef`)
  into it.  The two default-argument dictionaries of `Patient.__init__`
  are evaluated once, when the `def` statement is executed, and live at the
  fixed addresses 0 and 1 of the module-initial heap.
-/

/-- Python `int()` on a rational value: truncation toward zero
(`int(learning_rate*len(hard_samples_indexes))` at line 197 of
`lss_train.py`). -/
def intTrunc (q : ℚ) : ℤ :=
  if 0 ≤ q.num then q.num / q.den else -((-q.num) / q.den)

/-- Python `random.sample(pool, k)`: `k` draws without replacement.  The
oracle gives, for each current pool size, the position drawn; `none` models
the `ValueError` raised when `k` exceeds the population size. -/
def randomSample (o : ℕ → ℕ) : (pool : List ℕ) → (k : ℕ) → Option (List ℕ)
  | _, 0 => some []
  | [], _ + 1 => none
  | a :: l, k + 1 =>
    let i : ℕ := o (l.length + 1) % (l.length + 1)
    let x := (a :: l).get ⟨i, Nat.mod_lt _ (Nat.succ_pos _)⟩
    match randomSample o ((a :: l).eraseIdx i) k with
    | none => none
    | some rest => some (x :: rest)

/-- `random.sample` with a Python `int` count: a negative count also raises
`ValueError`. -/
def pySample (o : ℕ → ℕ) (pool : List ℕ) (k : ℤ) : Option (List ℕ) :=
  if k < 0 then none else randomSample o pool k.toNat

/-- Line 196 of `lss_train.py`:
`[idx for idx, targets in enumerate(zip(y_test, y_pred)) if targets[0] != targets[1]]`. -/
def hardSampleIndexes (y_test y_pred : List ℕ) : List ℕ :=
  (((y_test.zip y_pred).enum).filter fun p => p.2.1 != p.2.2).map Prod.fst

/-- Number of indices at which both the true and the predicted label equal
`c` (the true positives of class `c`). -/
def truePos (c : ℕ) (y_true y_pred : List ℕ) : ℕ :=
  ((y_true.zip y_pred).filter fun p => p.1 == c && p.2 == c).length

/-- Number of predictions equal to `c`. -/
def predPos (c : ℕ) (y_pred : List ℕ) : ℕ :=
  (y_pred.filter fun b => b == c).length

/-- Number of true labels equal to `c` (the support of class `c`). -/
def actualPos (c : ℕ) (y_true : List ℕ) : ℕ :=
  (y_true.filter fun a => a == c).length

/-- Per-class precision as computed by
`sklearn.metrics.precision_recall_fscore_support`: true positives over
predicted positives, and 0 when the class is never predicted. -/
def classPrecision (c : ℕ) (y_true y_pred : List ℕ) : ℚ :=
  if predPos c y_pred = 0 then 0
  else (truePos c y_true y_pred : ℚ) / (predPos c y_pred : ℚ)

/-- Per-class recall: true positives over support, and 0 when the class has
no support. -/
def classRecall (c : ℕ) (y_true y_pred : List ℕ) : ℚ :=
  if actualPos c y_true = 0 then 0
  else (truePos c y_true y_pred : ℚ) / (actualPos c y_true : ℚ)

/-- The sorted list of labels present in `y_true` or `y_pred`
(`numpy.unique` of their union), the label axis of the arrays returned by
`precision_recall_fscore_support` when no `labels` argument is given. -/
def presentLabels (y_true y_pred : List ℕ) : List ℕ :=
  (List.range ((y_true ++ y_pred).foldr max 0 + 1)).filter
    fun c => (y_true ++ y_pred).contains c

/-- The `precision` array of line 187 of `lss_train.py`. -/
def precisionList (y_true y_pred : List ℕ) : List ℚ :=
  (presentLabels y_true y_pred).map fun c => classPrecision c y_true y_pred

/-- The `recall` array of line 187 of `lss_train.py`. -/
def recallList (y_true y_pred : List ℕ) : List ℚ :=
  (presentLabels y_true y_pred).map fun c => classRecall c y_true y_pred

/-- Line 191 of `lss_train.py`:
`all(np.array(precision) > convergence_threshold) and all (np.array(recall) > convergence_threshold)`. -/
def convergenceCheck (ps rs : List ℚ) (threshold : ℚ) : Bool :=
  (ps.all fun p => threshold < p) && (rs.all fun r => threshold < r)

/-- The configuration and external collaborators of one training run:
the fitted-projection transform, the classifier fit (GridSearchCV over SVC)
and predict functions, the CLI options, and the oracle abstracting the
global `random` generator (first argument: epoch, then pool size per draw). -/
structure TrainParams (P C : Type) where
  transform : P → List (List ℚ) → List (List ℚ)
  fitClf : List (List ℚ) → List ℕ → C
  predict : C → List (List ℚ) → List ℕ
  threshold : ℚ
  learning_rate : ℚ
  max_epochs : ℤ
  oracle : ℕ → ℕ → ℕ

/-- The module-level mutable state of `lss_train.py` that the epoch loop
reads or writes.  `clf` is `none` while the Python name `clf` is still
undefined (it is first bound inside the loop body, line 174). -/
structure LoopState (P C : Type) where
  X_train : List (List ℚ)
  y_train : List ℕ
  X_test : List (List ℚ)
  y_test : List ℕ
  pca : P
  clf : Option C
  current_epoch : ℤ
  converged : Bool

/-- Result of one execution of the loop body: fall through to the next
iteration, `break` out at line 193, or propagate the `ValueError` of
`random.sample` at line 197. -/
inductive StepRes (P C : Type) where
  | next (s : LoopState P C)
  | broke (s : LoopState P C)
  | valueError (s : LoopState P C)

/-- Lines 160-174: project the training set, fit the grid-searched SVC. -/
def epochClf {P C : Type} (pr : TrainParams P C) (s : LoopState P C) : C :=
  pr.fitClf (pr.transform s.pca s.X_train) s.y_train

/-- Lines 161-182: `y_pred = clf.predict(X_test_pca)`. -/
def epochPred {P C : Type} (pr : TrainParams P C) (s : LoopState P C) : List ℕ :=
  pr.predict (epochClf pr s) (pr.transform s.pca s.X_test)

/-- Line 191 evaluated on this epoch's precision/recall arrays. -/
def epochConverged {P C : Type} (pr : TrainParams P C) (s : LoopState P C) : Bool :=
  convergenceCheck (precisionList s.y_test (epochPred pr s))
    (recallList s.y_test (epochPred pr s)) pr.threshold

/-- Line 196: `hard_samples_indexes`. -/
def epochPool {P C : Type} (pr : TrainParams P C) (s : LoopState P C) : List ℕ :=
  hardSampleIndexes s.y_test (epochPred pr s)

/-- Line 197: `int(learning_rate*len(hard_samples_indexes))`. -/
def epochCount {P C : Type} (pr : TrainParams P C) (s : LoopState P C) : ℤ :=
  intTrunc (pr.learning_rate * ((epochPool pr s).length : ℚ))

/-- Line 197: `hard_samples_chosen = random.sample(...)`. -/
def epochChosen {P C : Type} (pr : TrainParams P C) (s : LoopState P C) : Option (List ℕ) :=
  pySample (pr.oracle s.current_epoch.toNat) (epochPool pr s) (epochCount pr s)

/-- One execution of the body of the `while` loop, lines 154-210 of
`lss_train.py`: project, fit, predict, check convergence (`break` at 193 —
the source assigns the misspelled variable `convergence` there, which is
never read, so the model keeps `converged` untouched), select hard samples
(`X_test[hard_samples_chosen]`, `y_test[hard_samples_chosen]`), concatenate
them onto the training set, and increment `current_epoch`. -/
def epochStep {P C : Type} (pr : TrainParams P C) (s : LoopState P C) : StepRes P C :=
  if epochConverged pr s then
    StepRes.broke { s with clf := some (epochClf pr s) }
  else
    match epochChosen pr s with
    | none => StepRes.valueError { s with clf := some (epochClf pr s) }
    | some chosen =>
        StepRes.next { s with
          clf := some (epochClf pr s)
          X_train := s.X_train ++ chosen.map fun i => s.X_test.getD i []
          y_train := s.y_train ++ chosen.map fun i => s.y_test.getD i 0
          current_epoch := s.current_epoch + 1 }

/-- How the epoch loop ended: condition `current_epoch < max_epochs and not
converged` became false, `break` on convergence, or uncaught `ValueError`. -/
inductive Outcome where
  | exhausted
  | convergedExit
  | raised

/-- Final state and termination mode of the epoch loop. -/
structure RunResult (P C : Type) where
  state : LoopState P C
  outcome : Outcome

/-- The `while (current_epoch < max_epochs and not converged)` loop of
lines 153-210. -/
def runLoop {P C : Type} (pr : TrainParams P C) (s : LoopState P C) : RunResult P C :=
  if h : s.current_epoch < pr.max_epochs ∧ s.converged = false then
    match h' : epochStep pr s with
    | StepRes.broke s' => ⟨s', Outcome.convergedExit⟩
    | StepRes.valueError s' => ⟨s', Outcome.raised⟩
    | StepRes.next s' => runLoop pr s'
  else ⟨s, Outcome.exhausted⟩
termination_by (pr.max_epochs - s.current_epoch).toNat
decreasing_by
  have he : s'.current_epoch = s.current_epoch + 1 := by
    rw [epochStep] at h'
    split at h'
    · cases h'
    · split at h'
      · cases h'
      · cases h'; rfl
  obtain ⟨h1, -⟩ := h
  omega

/-- The module-level state just before the loop: `X_test, y_test = X, y`
(line 127), the assembled initial training set (line 133), the PCA fitted
once on the full matrix `X` (line 143), `converged = False` and
`current_epoch = 0` (lines 151-152), and the Python name `clf` not yet
bound. -/
def initState {P C : Type} (X : List (List ℚ)) (y : List ℕ)
    (X_train : List (List ℚ)) (y_train : List ℕ) (pca : P) : LoopState P C :=
  { X_train := X_train, y_train := y_train, X_test := X, y_test := y,
    pca := pca, clf := none, current_epoch := 0, converged := false }

/-- The states the loop visits: `Reaches pr s t` holds when the loop,
started at the top of an iteration in state `s`, later arrives at the top
of an iteration in state `t` (zero or more non-broken loop-body
executions, each permitted by the loop condition). -/
inductive Reaches {P C : Type} (pr : TrainParams P C) :
    LoopState P C → LoopState P C → Prop where
  | refl (s : LoopState P C) : Reaches pr s s
  | step (s s' s'' : LoopState P C) : Reaches pr s s' →
      s'.current_epoch < pr.max_epochs → s'.converged = false →
      epochStep pr s' = StepRes.next s'' → Reaches pr s s''

/-- Uncaught Python exceptions the modelled fragment can raise. -/
inductive PyError where
  | valueError
  | nameError

/-- The whole run from the top of the loop: the loop (lines 153-210), then
the final report (`clf.predict` at line 229 — a `NameError` if the loop body
never executed, since `clf` is only bound inside the loop) and
`joblib.dump` (line 239).  `Except.ok` carries the classifier that was
written to the model file; any `Except.error` aborts before the dump. -/
def fullRun {P C : Type} (pr : TrainParams P C) (s : LoopState P C) : Except PyError C :=
  match runLoop pr s with
  | ⟨_, Outcome.raised⟩ => Except.error PyError.valueError
  | ⟨t, _⟩ =>
    match t.clf with
    | none => Except.error PyError.nameError
    | some c => Except.ok c

/-- The `Volume` class of `lic_patient.py`: an id (the sequence folder
name) plus opaque header and raw-data payloads. -/
structure Volume (H D : Type) where
  id : String
  header : H
  data : D

/-- A Python `Patient` object.  Its `volumes` and `labelmaps` attributes
are references (heap addresses) to dictionaries, not the dictionaries
themselves.  `total_volume` is the `_total_volume` cache, `None` on
construction. -/
structure Patient where
  id : String
  volumesRef : ℕ
  labelmapsRef : ℕ
  total_volume : Option ℕ

/-- The store of all dictionary objects, addressed by position. -/
structure DictHeap (V : Type) where
  store : List (List (String × V))

/-- Read the dictionary at an address. -/
def heapGet {V : Type} (h : DictHeap V) (r : ℕ) : List (String × V) :=
  h.store.getD r []

/-- Overwrite the dictionary at an address. -/
def heapSet {V : Type} (h : DictHeap V) (r : ℕ) (d : List (String × V)) : DictHeap V :=
  ⟨h.store.set r d⟩

/-- Python `d[k] = v` on an insertion-ordered dictionary. -/
def dictSet {V : Type} (d : List (String × V)) (k : String) (v : V) : List (String × V) :=
  if d.any fun p => p.1 == k then
    d.map fun p => if p.1 == k then (k, v) else p
  else d ++ [(k, v)]

/-- Python `d.get(k)`. -/
def dictGet {V : Type} (d : List (String × V)) (k : String) : Option V :=
  (d.find? fun p => p.1 == k).map Prod.snd

/-- Address of the dictionary created once for the default argument
`volumes={}` when `def __init__(self, id, volumes={}, labelmaps={})` is
executed at class-definition time. -/
def patientDefaultVolumes : ℕ := 0

/-- Address of the dictionary created once for the default argument
`labelmaps={}`. -/
def patientDefaultLabelmaps : ℕ := 1

/-- The heap after the module (and hence the `Patient` class body) has been
loaded: the two default-argument dictionaries exist and are empty. -/
def patientInitHeap (V : Type) : DictHeap V := ⟨[[], []]⟩

/-- `Patient.__init__`: store the id, bind the `volumes` and `labelmaps`
attributes to the caller-supplied dictionaries or — when the arguments are
omitted — to the shared default-argument dictionaries, and set
`_total_volume = None`.  No new dictionary is allocated. -/
def Patient.new {V : Type} (h : DictHeap V) (id : String)
    (volumes labelmaps : Option ℕ) : Patient × DictHeap V :=
  ({ id := id,
     volumesRef := volumes.getD patientDefaultVolumes,
     labelmapsRef := labelmaps.getD patientDefaultLabelmaps,
     total_volume := none }, h)

/-- `Patient.add_volume`: `self.volumes[volume.id] = volume`. -/
def Patient.add_volume {H D : Type} (h : DictHeap (Volume H D)) (p : Patient)
    (v : Volume H D) : DictHeap (Volume H D) :=
  heapSet h p.volumesRef (dictSet (heapGet h p.volumesRef) v.id v)

/-- Trivial projection/classifier collaborators returning fixed predictions;
used to evaluate the loop on concrete inputs. -/
def constParams (yp : List ℕ) (t lr : ℚ) (m : ℤ) : TrainParams Unit Unit :=
  { transform := fun _ x => x, fitClf := fun _ _ => (), predict := fun _ _ => yp,
    threshold := t, learning_rate := lr, max_epochs := m, oracle := fun _ _ => 0 }

/-- Concrete run configuration for the hard-sample-selection claim:
predictions disagree with both test labels, learning rate 1. -/
def prC2 : TrainParams Unit Unit := constParams [1, 0] (19/20) 1 100

/-- Concrete loop state for the hard-sample-selection claim. -/
def sC2 : LoopState Unit Unit :=
  { X_train := [[0]], y_train := [0], X_test := [[0], [1]], y_test := [0, 1],
    pca := (), clf := none, current_epoch := 0, converged := false }

/-- The state `epochStep prC2 sC2` steps to. -/
def sC2' : LoopState Unit Unit :=
  { X_train := [[0], [0], [1]], y_train := [0, 0, 1], X_test := [[0], [1]],
    y_test := [0, 1], pca := (), clf := some (), current_epoch := 1, converged := false }

/-- Concrete run configuration for the termination claim. -/
def prC3 : TrainParams Unit Unit := constParams [] (19/20) (1/10) 0

/-- Concrete loop state for the termination claim. -/
def sC3 : LoopState Unit Unit := initState [[0]] [0] [[0]] [0] ()

/-- Concrete run configuration for the alignment claim. -/
def prC4 : TrainParams Unit Unit := constParams [] (19/20) (1/10) 100

/-- Concrete loop state for the alignment claim. -/
def sC4 : LoopState Unit Unit := initState [[0]] [0] [[0]] [0] ()

/-- Concrete run configuration for the monotone-growth claim. -/
def prC5 : TrainParams Unit Unit := constParams [] (19/20) (1/10) 100

/-- Concrete loop state for the monotone-growth claim. -/
def sC5 : LoopState Unit Unit := initState [[0]] [0] [[0]] [0] ()

/-- Concrete run configuration for the projection-stability claim. -/
def prC6 : TrainParams Unit Unit := constParams [] (19/20) (1/10) 100

/-- Concrete loop state for the projection-stability claim. -/
def sC6 : LoopState Unit Unit := initState [[0]] [0] [[0]] [0] ()

/-- Configuration exhibiting the oversampling crash: learning rate 2, so the
requested hard-sample count is twice the disagreement-pool size. -/
def prC7 : TrainParams Unit Unit := constParams [1] (19/20) 2 100

/-- State exhibiting the oversampling crash: one test sample, predicted
wrongly, so the disagreement pool is `[0]` and the requested count is 2. -/
def sC7 : LoopState Unit Unit :=
  { X_train := [[0]], y_train := [0], X_test := [[0]], y_test := [0],
    pca := (), clf := none, current_epoch := 0, converged := false }

/-- The state in which the `ValueError` of `random.sample` is raised. -/
def sC7' : LoopState Unit Unit :=
  { X_train := [[0]], y_train := [0], X_test := [[0]], y_test := [0],
    pca := (), clf := some (), current_epoch := 0, converged := false }

/-- Scenario A evaluation labels: 100 balanced rows (50 per class). -/
def ytA : List ℕ := List.replicate 50 0 ++ List.replicate 50 1

/-- Scenario A counter-example predictions: the classifier answers class 0
everywhere. -/
def ypA : List ℕ := List.replicate 100 0

/-- Concrete run configuration with a zero epoch budget. -/
def prC9 : TrainParams Unit Unit := constParams [] (19/20) (1/10) 0

/-- Concrete pre-loop state for the zero-epoch-budget claim. -/
def sC9 : LoopState Unit Unit := initState [[0]] [0] [[0]] [0] ()

theorem intTrunc_eq_floor (q : ℚ) (h : 0 ≤ q) : intTrunc q = ⌊q⌋ := by
  rw [intTrunc, if_pos (Rat.num_nonneg.2 h), Rat.floor_def]

theorem perm_get_cons_eraseIdx : ∀ (l : List ℕ) (i : ℕ) (h : i < l.length),
    l.Perm (l.get ⟨i, h⟩ :: l.eraseIdx i)
  | _ :: _, 0, _ => List.Perm.refl _
  | a :: l, i + 1, h => by
    have ih := perm_get_cons_eraseIdx l i (by simpa using h)
    simpa using (ih.cons a).trans (List.Perm.swap _ _ _)

theorem randomSample_subperm (o : ℕ → ℕ) :
    ∀ (k : ℕ) (pool l : List ℕ), randomSample o pool k = some l → l.Subperm pool
  | 0, pool, l, h => by
    simp only [randomSample] at h
    cases h
    exact List.nil_subperm
  | k + 1, [], l, h => by simp [randomSample] at h
  | k + 1, a :: tl, l, h => by
    rw [randomSample] at h
    rcases h' : randomSample o ((a :: tl).eraseIdx (o (tl.length + 1) % (tl.length + 1))) k
      with _ | rest
    · rw [h'] at h; cases h
    · rw [h'] at h
      cases h
      have hsub := randomSample_subperm o k _ rest h'
      have hperm := perm_get_cons_eraseIdx (a :: tl) (o (tl.length + 1) % (tl.length + 1))
        (Nat.mod_lt _ (Nat.succ_pos _))
      exact ((List.subperm_cons _).2 hsub).trans hperm.symm.subperm

theorem randomSample_length (o : ℕ → ℕ) :
    ∀ (k : ℕ) (pool l : List ℕ), randomSample o pool k = some l → l.length = k
  | 0, pool, l, h => by simp only [randomSample] at h; cases h; rfl
  | k + 1, [], l, h => by simp [randomSample] at h
  | k + 1, a :: tl, l, h => by
    rw [randomSample] at h
    rcases h' : randomSample o ((a :: tl).eraseIdx (o (tl.length + 1) % (tl.length + 1))) k
      with _ | rest
    · rw [h'] at h; cases h
    · rw [h'] at h
      cases h
      simp [randomSample_length o k _ rest h']

theorem randomSample_isSome (o : ℕ → ℕ) :
    ∀ (k : ℕ) (pool : List ℕ), k ≤ pool.length → (randomSample o pool k).isSome
  | 0, pool, _ => by simp [randomSample]
  | k + 1, [], h => by simp at h
  | k + 1, a :: tl, h => by
    rw [randomSample]
    have hlen : ((a :: tl).eraseIdx (o (tl.length + 1) % (tl.length + 1))).length = tl.length := by
      rw [List.length_eraseIdx]
      simp [Nat.mod_lt _ (Nat.succ_pos tl.length)]
    have hrec := randomSample_isSome o k ((a :: tl).eraseIdx (o (tl.length + 1) % (tl.length + 1)))
      (by rw [hlen]; exact Nat.succ_le_succ_iff.1 (by simpa using h))
    rcases h' : randomSample o ((a :: tl).eraseIdx (o (tl.length + 1) % (tl.length + 1))) k
      with _ | rest
    · rw [h'] at hrec; simp at hrec
    · simp [h']

theorem randomSample_none (o : ℕ → ℕ) :
    ∀ (k : ℕ) (pool : List ℕ), pool.length < k → randomSample o pool k = none
  | 0, pool, h => by simp at h
  | k + 1, [], _ => by simp [randomSample]
  | k + 1, a :: tl, h => by
    rw [randomSample]
    have hlen : ((a :: tl).eraseIdx (o (tl.length + 1) % (tl.length + 1))).length = tl.length := by
      rw [List.length_eraseIdx]
      simp [Nat.mod_lt _ (Nat.succ_pos tl.length)]
    rw [randomSample_none o k _ (by rw [hlen]; exact Nat.lt_of_succ_lt_succ (by simpa using h))]

theorem randomSample_nodup (o : ℕ → ℕ) (k : ℕ) (pool l : List ℕ)
    (h : randomSample o pool k = some l) (hpool : pool.Nodup) : l.Nodup := by
  obtain ⟨l', hperm, hsub⟩ := randomSample_subperm o k pool l h
  exact hperm.nodup_iff.1 (hsub.nodup hpool)

theorem randomSample_mem (o : ℕ → ℕ) (k : ℕ) (pool l : List ℕ)
    (h : randomSample o pool k = some l) : ∀ i ∈ l, i ∈ pool :=
  fun _ hi => (randomSample_subperm o k pool l h).subset hi

theorem pySample_some (o : ℕ → ℕ) (pool : List ℕ) (k : ℤ) (l : List ℕ)
    (h : pySample o pool k = some l) :
    0 ≤ k ∧ randomSample o pool k.toNat = some l := by
  rw [pySample] at h
  split at h
  · cases h
  · next hk => exact ⟨by omega, h⟩

theorem mem_hardSampleIndexes (yt yp : List ℕ) (i : ℕ) :
    i ∈ hardSampleIndexes yt yp ↔
      ∃ a b, yt[i]? = some a ∧ yp[i]? = some b ∧ a ≠ b := by
  simp only [hardSampleIndexes, List.mem_map, List.mem_filter]
  constructor
  · rintro ⟨⟨j, a, b⟩, ⟨hmem, hne⟩, rfl⟩
    rw [List.mem_enum_iff_getElem?] at hmem
    rw [List.getElem?_zip_eq_some] at hmem
    exact ⟨a, b, hmem.1, hmem.2, by simpa using hne⟩
  · rintro ⟨a, b, ha, hb, hne⟩
    refine ⟨(i, (a, b)), ⟨?_, ?_⟩, rfl⟩
    · rw [List.mem_enum_iff_getElem?, List.getElem?_zip_eq_some]
      exact ⟨ha, hb⟩
    · simpa using hne

theorem hardSampleIndexes_nodup (yt yp : List ℕ) : (hardSampleIndexes yt yp).Nodup := by
  apply List.Nodup.map_on
  · rintro ⟨i, a⟩ hi ⟨j, b⟩ hj (h : i = j)
    subst h
    rw [List.mem_filter, List.mem_enum_iff_getElem?] at hi hj
    have hab : some a = some b := hi.1.symm.trans hj.1
    cases hab
    rfl
  · exact List.Nodup.filter _ (List.Nodup.of_map _ (List.nodup_enum_map_fst _))

theorem truePos_cons_cons (c a b : ℕ) (yt yp : List ℕ) :
    truePos c (a :: yt) (b :: yp) =
      (if a = c ∧ b = c then 1 else 0) + truePos c yt yp := by
  rw [truePos, truePos, List.zip_cons_cons, List.filter_cons]
  by_cases ha : a = c <;> by_cases hb : b = c <;> simp [ha, hb] <;> omega

theorem predPos_cons (c b : ℕ) (yp : List ℕ) :
    predPos c (b :: yp) = (if b = c then 1 else 0) + predPos c yp := by
  rw [predPos, predPos, List.filter_cons]
  by_cases hb : b = c <;> simp [hb] <;> omega

theorem actualPos_cons (c a : ℕ) (yt : List ℕ) :
    actualPos c (a :: yt) = (if a = c then 1 else 0) + actualPos c yt := by
  rw [actualPos, actualPos, List.filter_cons]
  by_cases ha : a = c <;> simp [ha] <;> omega

theorem truePos_le_predPos (c : ℕ) : ∀ (yt yp : List ℕ), truePos c yt yp ≤ predPos c yp
  | [], yp => Nat.zero_le _
  | _ :: _, [] => Nat.zero_le _
  | a :: yt, b :: yp => by
    have ih := truePos_le_predPos c yt yp
    rw [truePos_cons_cons, predPos_cons]
    by_cases ha : a = c <;> by_cases hb : b = c <;> simp [ha, hb] <;> omega

theorem truePos_le_actualPos (c : ℕ) : ∀ (yt yp : List ℕ), truePos c yt yp ≤ actualPos c yt
  | [], _ => Nat.zero_le _
  | _ :: _, [] => Nat.zero_le _
  | a :: yt, b :: yp => by
    have ih := truePos_le_actualPos c yt yp
    rw [truePos_cons_cons, actualPos_cons]
    by_cases ha : a = c <;> by_cases hb : b = c <;> simp [ha, hb] <;> omega

theorem classPrecision_pos_iff (c : ℕ) (yt yp : List ℕ) :
    0 < classPrecision c yt yp ↔ 0 < truePos c yt yp := by
  rw [classPrecision]
  split
  · next h =>
    have hle := truePos_le_predPos c yt yp
    constructor
    · intro h0; exact absurd h0 (lt_irrefl _)
    · intro h0; exact absurd h0 (by omega)
  · next h =>
    rw [div_pos_iff]
    constructor
    · rintro (⟨h1, -⟩ | ⟨-, h2⟩)
      · exact_mod_cast h1
      · exact absurd h2 (not_lt.2 (Nat.cast_nonneg _))
    · intro h1
      exact Or.inl ⟨by exact_mod_cast h1,
        by exact_mod_cast Nat.pos_of_ne_zero h⟩

theorem classRecall_pos_iff (c : ℕ) (yt yp : List ℕ) :
    0 < classRecall c yt yp ↔ 0 < truePos c yt yp := by
  rw [classRecall]
  split
  · next h =>
    have hle := truePos_le_actualPos c yt yp
    constructor
    · intro h0; exact absurd h0 (lt_irrefl _)
    · intro h0; exact absurd h0 (by omega)
  · next h =>
    rw [div_pos_iff]
    constructor
    · rintro (⟨h1, -⟩ | ⟨-, h2⟩)
      · exact_mod_cast h1
      · exact absurd h2 (not_lt.2 (Nat.cast_nonneg _))
    · intro h1
      exact Or.inl ⟨by exact_mod_cast h1,
        by exact_mod_cast Nat.pos_of_ne_zero h⟩

theorem convergenceCheck_zero_iff (yt yp : List ℕ) :
    convergenceCheck (precisionList yt yp) (recallList yt yp) 0 = true ↔
      ∀ c ∈ presentLabels yt yp, 0 < truePos c yt yp := by
  simp only [convergenceCheck, precisionList, recallList, Bool.and_eq_true,
    List.all_eq_true, List.forall_mem_map, decide_eq_true_eq]
  constructor
  · rintro ⟨hp, -⟩ c hc
    exact (classPrecision_pos_iff c yt yp).1 (hp c hc)
  · intro h
    exact ⟨fun c hc => (classPrecision_pos_iff c yt yp).2 (h c hc),
           fun c hc => (classRecall_pos_iff c yt yp).2 (h c hc)⟩

theorem intTrunc_natCast (n : ℕ) : intTrunc (n : ℚ) = n := by
  rw [intTrunc, if_pos]
  · rw [Rat.num_natCast, Rat.den_natCast]
    simp
  · rw [Rat.num_natCast]
    exact Int.natCast_nonneg n

theorem epochStep_broke_eq {P C : Type} (pr : TrainParams P C) (s s' : LoopState P C)
    (h : epochStep pr s = StepRes.broke s') :
    epochConverged pr s = true ∧ s' = { s with clf := some (epochClf pr s) } := by
  rw [epochStep] at h
  split at h
  · next hc => cases h; exact ⟨hc, rfl⟩
  · split at h <;> cases h

theorem epochStep_valueError_eq {P C : Type} (pr : TrainParams P C) (s s' : LoopState P C)
    (h : epochStep pr s = StepRes.valueError s') :
    epochConverged pr s = false ∧ epochChosen pr s = none ∧
      s' = { s with clf := some (epochClf pr s) } := by
  rw [epochStep] at h
  split at h
  · cases h
  · next hc =>
    split at h
    · next hch => cases h; exact ⟨by simpa using hc, hch, rfl⟩
    · cases h

theorem epochStep_next_eq {P C : Type} (pr : TrainParams P C) (s s' : LoopState P C)
    (h : epochStep pr s = StepRes.next s') :
    epochConverged pr s = false ∧
    ∃ chosen, epochChosen pr s = some chosen ∧
      s' = { s with
             clf := some (epochClf pr s)
             X_train := s.X_train ++ chosen.map (fun i => s.X_test.getD i [])
             y_train := s.y_train ++ chosen.map (fun i => s.y_test.getD i 0)
             current_epoch := s.current_epoch + 1 } := by
  rw [epochStep] at h
  split at h
  · cases h
  · next hc =>
    split at h
    · cases h
    · next chosen hch => cases h; exact ⟨by simpa using hc, chosen, hch, rfl⟩

theorem epochStep_next_epoch {P C : Type} (pr : TrainParams P C) (s s' : LoopState P C)
    (h : epochStep pr s = StepRes.next s') : s'.current_epoch = s.current_epoch + 1 := by
  obtain ⟨-, chosen, -, hs⟩ := epochStep_next_eq pr s s' h
  subst hs
  rfl

theorem epochStep_broke_epoch {P C : Type} (pr : TrainParams P C) (s s' : LoopState P C)
    (h : epochStep pr s = StepRes.broke s') : s'.current_epoch = s.current_epoch := by
  obtain ⟨-, hs⟩ := epochStep_broke_eq pr s s' h
  subst hs
  rfl

theorem epochStep_valueError_epoch {P C : Type} (pr : TrainParams P C) (s s' : LoopState P C)
    (h : epochStep pr s = StepRes.valueError s') : s'.current_epoch = s.current_epoch := by
  obtain ⟨-, -, hs⟩ := epochStep_valueError_eq pr s s' h
  subst hs
  rfl

theorem runLoop_not_cond {P C : Type} (pr : TrainParams P C) (s : LoopState P C)
    (h : ¬(s.current_epoch < pr.max_epochs ∧ s.converged = false)) :
    runLoop pr s = ⟨s, Outcome.exhausted⟩ := by
  rw [runLoop, dif_neg h]

theorem runLoop_next {P C : Type} (pr : TrainParams P C) (s s' : LoopState P C)
    (h : s.current_epoch < pr.max_epochs ∧ s.converged = false)
    (h' : epochStep pr s = StepRes.next s') : runLoop pr s = runLoop pr s' := by
  rw [runLoop, dif_pos h]
  split
  · next x heq => rw [h'] at heq; cases heq
  · next x heq => rw [h'] at heq; cases heq
  · next x heq => rw [h'] at heq; cases heq; rfl

theorem runLoop_bounds {P C : Type} (pr : TrainParams P C) (s : LoopState P C) :
    s.current_epoch ≤ (runLoop pr s).state.current_epoch ∧
    (runLoop pr s).state.current_epoch ≤ max pr.max_epochs s.current_epoch := by
  generalize hn : (pr.max_epochs - s.current_epoch).toNat = n
  induction n using Nat.strong_induction_on generalizing s with
  | _ n ih =>
    by_cases hc : s.current_epoch < pr.max_epochs ∧ s.converged = false
    · rw [runLoop, dif_pos hc]
      split
      · next s' heq =>
        have he := epochStep_broke_epoch pr s s' heq
        exact ⟨by show s.current_epoch ≤ s'.current_epoch; omega,
          le_max_of_le_right (by show s'.current_epoch ≤ s.current_epoch; omega)⟩
      · next s' heq =>
        have he := epochStep_valueError_epoch pr s s' heq
        exact ⟨by show s.current_epoch ≤ s'.current_epoch; omega,
          le_max_of_le_right (by show s'.current_epoch ≤ s.current_epoch; omega)⟩
      · next s' heq =>
        have he := epochStep_next_epoch pr s s' heq
        obtain ⟨hc1, -⟩ := hc
        have hrec := ih (pr.max_epochs - s'.current_epoch).toNat (by omega) s' rfl
        refine ⟨by omega, ?_⟩
        rcases hrec with ⟨-, h2⟩
        rcases le_max_iff.1 h2 with h3 | h3
        · exact le_max_of_le_left h3
        · exact le_max_of_le_left (by omega)
    · rw [runLoop_not_cond pr s hc]
      exact ⟨le_refl _, le_max_of_le_right (le_refl _)⟩

theorem reaches_invariant {P C : Type} (pr : TrainParams P C) (s t : LoopState P C)
    (h : Reaches pr s t) :
    t.X_test = s.X_test ∧ t.y_test = s.y_test ∧ t.pca = s.pca ∧
    s.X_train.length ≤ t.X_train.length ∧
    (t.X_train.length : ℤ) - t.y_train.length = (s.X_train.length : ℤ) - s.y_train.length ∧
    t.converged = s.converged := by
  induction h with
  | refl => exact ⟨rfl, rfl, rfl, le_refl _, rfl, rfl⟩
  | step s2 s3 hr hlt hcv hstep ih =>
    obtain ⟨hc, chosen, hch, hs3⟩ := epochStep_next_eq pr s2 s3 hstep
    obtain ⟨h1, h2, h3, h4, h5, h6⟩ := ih
    subst hs3
    refine ⟨h1, h2, h3, ?_, ?_, h6⟩
    · show s.X_train.length ≤ (s2.X_train ++ chosen.map (fun i => s2.X_test.getD i [])).length
      rw [List.length_append]
      omega
    · show ((s2.X_train ++ chosen.map (fun i => s2.X_test.getD i [])).length : ℤ) -
        (s2.y_train ++ chosen.map (fun i => s2.y_test.getD i 0)).length =
        (s.X_train.length : ℤ) - s.y_train.length
      rw [List.length_append, List.length_append, List.length_map, List.length_map]
      push_cast
      omega

/-- Claim C1: the convergence check of line 191 of `lss_train.py`, given
two-class precision and recall vectors, is true iff every class's precision
AND every class's recall strictly exceed the threshold; a single class
whose recall is ≤ the threshold makes it false even when all the other
values exceed the threshold. -/
theorem convergence_check_conjunction (p0 p1 r0 r1 t : ℚ) :
    (convergenceCheck [p0, p1] [r0, r1] t = true ↔
      ((t < p0 ∧ t < r0) ∧ (t < p1 ∧ t < r1))) ∧
    (r1 ≤ t → convergenceCheck [p0, p1] [r0, r1] t = false) ∧
    (r0 ≤ t → convergenceCheck [p0, p1] [r0, r1] t = false) := by
  have hiff : convergenceCheck [p0, p1] [r0, r1] t = true ↔
      ((t < p0 ∧ t < r0) ∧ (t < p1 ∧ t < r1)) := by
    simp only [convergenceCheck, List.all_cons, List.all_nil, Bool.and_true,
      Bool.and_eq_true, decide_eq_true_eq]
    tauto
  refine ⟨hiff, fun hr => ?_, fun hr => ?_⟩
  · rw [Bool.eq_false_iff]
    intro hT
    exact absurd (hiff.1 hT).2.2 (not_lt.2 hr)
  · rw [Bool.eq_false_iff]
    intro hT
    exact absurd (hiff.1 hT).1.2 (not_lt.2 hr)

/-- Witness for C1: precision (1,1), recall (1,0), threshold 0 — the single
weak class blocks convergence. -/
theorem convergence_check_conjunction_witness :
    convergenceCheck [1, 1] [1, 0] 0 = false :=
  (convergence_check_conjunction 1 1 1 0 0).2.1 (le_refl 0)

/-- Claim C3: the epoch loop terminates after at most max_epochs
non-converged iterations — the final epoch counter stays within
max(max_epochs, starting counter), a stepped (non-converged) iteration
increments the counter by exactly one, and the loop condition fails as soon
as the counter has reached max_epochs. -/
theorem epoch_loop_terminates {P C : Type} (pr : TrainParams P C) (s : LoopState P C) :
    (s.current_epoch ≤ (runLoop pr s).state.current_epoch ∧
     (runLoop pr s).state.current_epoch ≤ max pr.max_epochs s.current_epoch) ∧
    (∀ s', epochStep pr s = StepRes.next s' → s'.current_epoch = s.current_epoch + 1) ∧
    (pr.max_epochs ≤ s.current_epoch → runLoop pr s = ⟨s, Outcome.exhausted⟩) := by
  refine ⟨runLoop_bounds pr s, fun s' h => epochStep_next_epoch pr s s' h, fun hm => ?_⟩
  exact runLoop_not_cond pr s (fun hcond => absurd hcond.1 (not_lt.2 hm))

/-- Witness for C3 at a concrete configuration with max_epochs = 0. -/
theorem epoch_loop_terminates_witness :
    (sC3.current_epoch ≤ (runLoop prC3 sC3).state.current_epoch ∧
     (runLoop prC3 sC3).state.current_epoch ≤ max prC3.max_epochs sC3.current_epoch) ∧
    (∀ s', epochStep prC3 sC3 = StepRes.next s' → s'.current_epoch = sC3.current_epoch + 1) ∧
    (prC3.max_epochs ≤ sC3.current_epoch → runLoop prC3 sC3 = ⟨sC3, Outcome.exhausted⟩) :=
  epoch_loop_terminates prC3 sC3

/-- Claim C4: at every state the loop reaches, the training set stays
aligned (len X_train = len y_train), and the evaluation set is exactly the
full feature matrix and label vector it was assigned before the loop —
aligned and never changed. -/
theorem alignment_and_fixed_eval_set {P C : Type} (pr : TrainParams P C)
    (X : List (List ℚ)) (y : List ℕ) (Xtr : List (List ℚ)) (ytr : List ℕ) (p : P)
    (hTr : Xtr.length = ytr.length) (hXy : X.length = y.length) :
    ∀ t, Reaches pr (initState X y Xtr ytr p) t →
      t.X_train.length = t.y_train.length ∧ t.X_test = X ∧ t.y_test = y ∧
      t.X_test.length = t.y_test.length := by
  intro t ht
  obtain ⟨h1, h2, -, -, h5, -⟩ := reaches_invariant pr (initState X y Xtr ytr p) t ht
  simp only [initState] at h1 h2 h5
  refine ⟨by omega, h1, h2, ?_⟩
  rw [h1, h2]
  exact hXy

/-- Witness for C4 at a one-sample dataset, at the initial state itself. -/
theorem alignment_and_fixed_eval_set_witness :
    sC4.X_train.length = sC4.y_train.length ∧ sC4.X_test = [[0]] ∧ sC4.y_test = [0] ∧
    sC4.X_test.length = sC4.y_test.length :=
  alignment_and_fixed_eval_set prC4 [[0]] [0] [[0]] [0] () rfl rfl sC4 (Reaches.refl _)

/-- Claim C5: on a non-converged (stepped) epoch the training-set length
never decreases, and stays equal exactly when the requested hard-sample
count int(learning_rate*len(pool)) is zero; across any reachable sequence
of epochs the training set never shrinks. -/
theorem train_set_monotone_growth {P C : Type} (pr : TrainParams P C) (s : LoopState P C) :
    (∀ s', epochStep pr s = StepRes.next s' →
      s.X_train.length ≤ s'.X_train.length ∧
      (s'.X_train.length = s.X_train.length ↔ (epochCount pr s).toNat = 0)) ∧
    (∀ t, Reaches pr s t → s.X_train.length ≤ t.X_train.length) := by
  constructor
  · intro s' h
    obtain ⟨-, chosen, hch, hs⟩ := epochStep_next_eq pr s s' h
    rw [epochChosen] at hch
    obtain ⟨hk, hrs⟩ := pySample_some _ _ _ _ hch
    have hlen := randomSample_length _ _ _ _ hrs
    subst hs
    simp only [List.length_append, List.length_map]
    omega
  · exact fun t ht => (reaches_invariant pr s t ht).2.2.2.1

/-- Witness for C5 at a concrete configuration. -/
theorem train_set_monotone_growth_witness :
    (∀ s', epochStep prC5 sC5 = StepRes.next s' →
      sC5.X_train.length ≤ s'.X_train.length ∧
      (s'.X_train.length = sC5.X_train.length ↔ (epochCount prC5 sC5).toNat = 0)) ∧
    (∀ t, Reaches prC5 sC5 t → sC5.X_train.length ≤ t.X_train.length) :=
  train_set_monotone_growth prC5 sC5

/-- Claim C6: the fitted projection carried in the loop state is identical
at every reachable epoch (the loop never refits it), and each epoch only
applies its transform — once to the current training set and once to the
fixed evaluation set — before fitting and predicting. -/
theorem projection_fit_once {P C : Type} (pr : TrainParams P C) (s : LoopState P C) :
    (∀ t, Reaches pr s t → t.pca = s.pca) ∧
    (∀ t : LoopState P C, epochPred pr t =
      pr.predict (pr.fitClf (pr.transform t.pca t.X_train) t.y_train)
        (pr.transform t.pca t.X_test)) :=
  ⟨fun t ht => (reaches_invariant pr s t ht).2.2.1, fun _ => rfl⟩

/-- Witness for C6 at a concrete configuration. -/
theorem projection_fit_once_witness :
    (∀ t, Reaches prC6 sC6 t → t.pca = sC6.pca) ∧
    (∀ t : LoopState Unit Unit, epochPred prC6 t =
      prC6.predict (prC6.fitClf (prC6.transform t.pca t.X_train) t.y_train)
        (prC6.transform t.pca t.X_test)) :=
  projection_fit_once prC6 sC6

/-- Claim C9: when max_epochs ≤ 0 the loop condition is false at once, the
body never executes, the name clf is still unbound at the final report, and
the run ends in a NameError instead of producing the model artifact. -/
theorem no_model_when_epochs_nonpositive {P C : Type} (pr : TrainParams P C)
    (s : LoopState P C) (hm : pr.max_epochs ≤ 0) (he : s.current_epoch = 0)
    (hc : s.clf = none) :
    runLoop pr s = ⟨s, Outcome.exhausted⟩ ∧
    fullRun pr s = Except.error PyError.nameError := by
  have hloop : runLoop pr s = ⟨s, Outcome.exhausted⟩ :=
    runLoop_not_cond pr s (fun hcond => absurd hcond.1 (by rw [he]; omega))
  refine ⟨hloop, ?_⟩
  unfold fullRun
  rw [hloop]
  show (match s.clf with
        | none => Except.error PyError.nameError
        | some c => Except.ok c) = Except.error PyError.nameError
  rw [hc]

/-- Witness for C9: a configuration with epoch budget 0 ends in a NameError
and writes no model. -/
theorem no_model_when_epochs_nonpositive_witness :
    runLoop prC9 sC9 = ⟨sC9, Outcome.exhausted⟩ ∧
    fullRun prC9 sC9 = Except.error PyError.nameError :=
  no_model_when_epochs_nonpositive prC9 sC9 (le_refl 0) rfl rfl

/-- Claim C2: on a non-converged (stepped) epoch the number of samples
appended to the training set equals floor(learning_rate * |disagreement
set|); the chosen indices are distinct members of that disagreement set,
and each one points at a test sample whose true label differs from the
label predicted for it this epoch. -/
theorem hard_sample_selection_spec {P C : Type} (pr : TrainParams P C)
    (s s' : LoopState P C) (hlr : 0 ≤ pr.learning_rate)
    (h : epochStep pr s = StepRes.next s') :
    ((s'.y_train.length : ℤ) =
      s.y_train.length + ⌊pr.learning_rate * ((epochPool pr s).length : ℚ)⌋) ∧
    (∀ chosen, epochChosen pr s = some chosen →
      chosen.Nodup ∧
      (∀ i ∈ chosen, i ∈ epochPool pr s) ∧
      (∀ i ∈ chosen, ∃ a b, s.y_test[i]? = some a ∧
        (epochPred pr s)[i]? = some b ∧ a ≠ b)) := by
  obtain ⟨-, chosen0, hch0, hs⟩ := epochStep_next_eq pr s s' h
  have hmul : (0:ℚ) ≤ pr.learning_rate * ((epochPool pr s).length : ℚ) :=
    mul_nonneg hlr (Nat.cast_nonneg _)
  have hfloor : epochCount pr s = ⌊pr.learning_rate * ((epochPool pr s).length : ℚ)⌋ := by
    rw [show epochCount pr s =
      intTrunc (pr.learning_rate * ((epochPool pr s).length : ℚ)) from rfl]
    exact intTrunc_eq_floor _ hmul
  obtain ⟨hk, hrs⟩ := pySample_some _ _ _ _ hch0
  have hlen := randomSample_length _ _ _ _ hrs
  subst hs
  constructor
  · show ((s.y_train ++ chosen0.map (fun i => s.y_test.getD i 0)).length : ℤ) = _
    rw [List.length_append, List.length_map]
    push_cast
    rw [← hfloor]
    omega
  · intro chosen hch
    rw [hch0] at hch
    cases hch
    refine ⟨?_, ?_, ?_⟩
    · exact randomSample_nodup _ _ _ _ hrs
        (hardSampleIndexes_nodup s.y_test (epochPred pr s))
    · exact fun i hi => randomSample_mem _ _ _ _ hrs i hi
    · intro i hi
      have hmem : i ∈ hardSampleIndexes s.y_test (epochPred pr s) :=
        randomSample_mem _ _ _ _ hrs i hi
      exact (mem_hardSampleIndexes s.y_test (epochPred pr s) i).1 hmem

theorem classPrecision_eval_prC2_0 : classPrecision 0 [0, 1] [1, 0] = 0 := by
  rw [classPrecision]
  have h1 : predPos 0 [1, 0] = 1 := by decide
  have h2 : truePos 0 [0, 1] [1, 0] = 0 := by decide
  rw [h1, h2]
  norm_num

theorem classPrecision_eval_prC2_1 : classPrecision 1 [0, 1] [1, 0] = 0 := by
  rw [classPrecision]
  have h1 : predPos 1 [1, 0] = 1 := by decide
  have h2 : truePos 1 [0, 1] [1, 0] = 0 := by decide
  rw [h1, h2]
  norm_num

theorem classRecall_eval_prC2_0 : classRecall 0 [0, 1] [1, 0] = 0 := by
  rw [classRecall]
  have h1 : actualPos 0 [0, 1] = 1 := by decide
  have h2 : truePos 0 [0, 1] [1, 0] = 0 := by decide
  rw [h1, h2]
  norm_num

theorem classRecall_eval_prC2_1 : classRecall 1 [0, 1] [1, 0] = 0 := by
  rw [classRecall]
  have h1 : actualPos 1 [0, 1] = 1 := by decide
  have h2 : truePos 1 [0, 1] [1, 0] = 0 := by decide
  rw [h1, h2]
  norm_num

theorem epochStep_prC2_eval : epochStep prC2 sC2 = StepRes.next sC2' := by
  have hpool : epochPool prC2 sC2 = [0, 1] := by decide
  have hcount : epochCount prC2 sC2 = 2 := by
    show intTrunc (prC2.learning_rate * ((epochPool prC2 sC2).length : ℚ)) = 2
    rw [hpool]
    show intTrunc ((1 : ℚ) * ((2 : ℕ) : ℚ)) = 2
    rw [one_mul]
    exact intTrunc_natCast 2
  have hch : epochChosen prC2 sC2 = some [0, 1] := by
    show pySample (prC2.oracle sC2.current_epoch.toNat) (epochPool prC2 sC2)
      (epochCount prC2 sC2) = some [0, 1]
    rw [hpool, hcount]
    decide
  have hpl : presentLabels [0, 1] [1, 0] = [0, 1] := by decide
  have hconv : epochConverged prC2 sC2 = false := by
    show convergenceCheck (precisionList [0, 1] [1, 0]) (recallList [0, 1] [1, 0])
      (19 / 20) = false
    show convergenceCheck
      ((presentLabels [0, 1] [1, 0]).map fun c => classPrecision c [0, 1] [1, 0])
      ((presentLabels [0, 1] [1, 0]).map fun c => classRecall c [0, 1] [1, 0])
      (19 / 20) = false
    rw [hpl]
    simp only [List.map_cons, List.map_nil, classPrecision_eval_prC2_0,
      classPrecision_eval_prC2_1, classRecall_eval_prC2_0, classRecall_eval_prC2_1]
    norm_num [convergenceCheck]
  simp only [epochStep, hconv, hch, Bool.false_eq_true, if_false]
  rfl

/-- Witness for C2 at the concrete configuration prC2/sC2: rate 1, two
disagreements, both appended. -/
theorem hard_sample_selection_spec_witness :
    ((sC2'.y_train.length : ℤ) =
      sC2.y_train.length + ⌊prC2.learning_rate * ((epochPool prC2 sC2).length : ℚ)⌋) ∧
    (∀ chosen, epochChosen prC2 sC2 = some chosen →
      chosen.Nodup ∧
      (∀ i ∈ chosen, i ∈ epochPool prC2 sC2) ∧
      (∀ i ∈ chosen, ∃ a b, sC2.y_test[i]? = some a ∧
        (epochPred prC2 sC2)[i]? = some b ∧ a ≠ b)) :=
  hard_sample_selection_spec prC2 sC2 sC2' (by norm_num [prC2, constParams])
    epochStep_prC2_eval

theorem classPrecision_eval_prC7_0 : classPrecision 0 [0] [1] = 0 := by
  rw [classPrecision]
  have h1 : predPos 0 [1] = 0 := by decide
  rw [h1]
  norm_num

theorem classPrecision_eval_prC7_1 : classPrecision 1 [0] [1] = 0 := by
  rw [classPrecision]
  have h1 : predPos 1 [1] = 1 := by decide
  have h2 : truePos 1 [0] [1] = 0 := by decide
  rw [h1, h2]
  norm_num

theorem classRecall_eval_prC7_0 : classRecall 0 [0] [1] = 0 := by
  rw [classRecall]
  have h1 : actualPos 0 [0] = 1 := by decide
  have h2 : truePos 0 [0] [1] = 0 := by decide
  rw [h1, h2]
  norm_num

theorem classRecall_eval_prC7_1 : classRecall 1 [0] [1] = 0 := by
  rw [classRecall]
  have h1 : actualPos 1 [0] = 0 := by decide
  rw [h1]
  norm_num

/-- Claim C7 (code bug): at a non-converged epoch with learning_rate = 2
and a single-element disagreement set, the requested hard-sample count
int(2*1) = 2 exceeds the available disagreements, and
random.sample([0], 2) raises ValueError — the selection step crashes
instead of completing. -/
theorem oversample_raises_valueerror : epochStep prC7 sC7 = StepRes.valueError sC7' := by
  have hpool : epochPool prC7 sC7 = [0] := by decide
  have hcount : epochCount prC7 sC7 = 2 := by
    show intTrunc (prC7.learning_rate * ((epochPool prC7 sC7).length : ℚ)) = 2
    rw [hpool]
    show intTrunc ((2 : ℚ) * ((1 : ℕ) : ℚ)) = 2
    rw [Nat.cast_one, mul_one]
    rw [show (2 : ℚ) = ((2 : ℕ) : ℚ) by norm_num]
    exact intTrunc_natCast 2
  have hch : epochChosen prC7 sC7 = none := by
    show pySample (prC7.oracle sC7.current_epoch.toNat) (epochPool prC7 sC7)
      (epochCount prC7 sC7) = none
    rw [hpool, hcount]
    decide
  have hpl : presentLabels [0] [1] = [0, 1] := by decide
  have hconv : epochConverged prC7 sC7 = false := by
    show convergenceCheck
      ((presentLabels [0] [1]).map fun c => classPrecision c [0] [1])
      ((presentLabels [0] [1]).map fun c => classRecall c [0] [1])
      (19 / 20) = false
    rw [hpl]
    simp only [List.map_cons, List.map_nil, classPrecision_eval_prC7_0,
      classPrecision_eval_prC7_1, classRecall_eval_prC7_0, classRecall_eval_prC7_1]
    norm_num [convergenceCheck]
  simp only [epochStep, hconv, hch, Bool.false_eq_true, if_false]
  rfl

set_option maxRecDepth 20000 in
/-- Counter-example to C8: with the 100 balanced evaluation labels of
Scenario A and threshold 0.0, the prediction vector that answers class 0
everywhere gives class 1 zero true positives, so the convergence check is
false — convergence does not trigger "regardless of classifier quality". -/
theorem scenario_a_counterexample :
    convergenceCheck (precisionList ytA ypA) (recallList ytA ypA) 0 = false := by
  rw [Bool.eq_false_iff]
  intro hT
  have hall := (convergenceCheck_zero_iff ytA ypA).1 hT
  have h1 : (1 : ℕ) ∈ presentLabels ytA ypA := by decide
  have h2 : truePos 1 ytA ypA = 0 := by decide
  have h3 := hall 1 h1
  omega

/-- Claim C8 (amended): with convergence threshold 0.0, the convergence
check passes iff every present class has at least one true positive (at
least one sample of that class is predicted correctly); in particular an
all-one-class prediction vector prevents convergence, so convergence at
epoch 0 is not unconditional. -/
theorem threshold_zero_convergence_iff (yt yp : List ℕ) :
    convergenceCheck (precisionList yt yp) (recallList yt yp) 0 = true ↔
      ∀ c ∈ presentLabels yt yp, 0 < truePos c yt yp :=
  convergenceCheck_zero_iff yt yp

theorem dictGet_dictSet_nil {V : Type} (k : String) (v : V) :
    dictGet (dictSet [] k v) k = some v := by
  rw [dictSet]
  simp [dictGet, List.find?]

/-- Claim C10: two Patients constructed without explicit volumes/labelmaps
arguments receive the same default-argument dictionary references, so a
volume added through the first is observable through the second. -/
theorem patient_default_dicts_shared (H D : Type) (id1 id2 : String) (v : Volume H D) :
    (Patient.new (patientInitHeap (Volume H D)) id1 none none).1.volumesRef =
      (Patient.new ((Patient.new (patientInitHeap (Volume H D)) id1 none none).2)
        id2 none none).1.volumesRef ∧
    dictGet
      (heapGet
        (Patient.add_volume
          ((Patient.new ((Patient.new (patientInitHeap (Volume H D)) id1 none none).2)
            id2 none none).2)
          ((Patient.new (patientInitHeap (Volume H D)) id1 none none).1) v)
        ((Patient.new ((Patient.new (patientInitHeap (Volume H D)) id1 none none).2)
          id2 none none).1.volumesRef))
      v.id = some v := by
  constructor
  · rfl
  · exact dictGet_dictSet_nil v.id v
